import Mathlib

/-!
Verification development for the node-membership and placement subsystem of
the rabbit-panel repository: the in-memory node registry (`NodeManager`),
the heartbeat-based liveness detector (`checkNodeHealth`), the least-loaded
placement selector (`SelectBestNode`), and the time-windowed HMAC inter-node
authentication scheme (`generateNodeToken` / `verifyNodeToken`).

The Go map `nodes map[string]*NodeInfo` is embedded as a list of records in
iteration order (Go map iteration order is unspecified, so statements
quantify over the list). Go `float64` gauges are embedded as rationals
(every value the subsystem computes on them here is exact), `time.Time` as
integer seconds, and the HMAC-SHA256 primitive as an abstract function
parameter `hmac : String -> String -> String` (keyed hash of a message
string), since the token scheme's behaviour depends only on the message
strings it is applied to.
-/

namespace RabbitPanel

/-- Node modes, from the `ModeMaster` / `ModeWorker` constants. -/
def ModeMaster : String := "master"

/-- Worker mode constant. -/
def ModeWorker : String := "worker"

/-- Node status constant `NodeStatusOnline = "online"`. -/
def NodeStatusOnline : String := "online"

/-- Node status constant `NodeStatusOffline = "offline"`. -/
def NodeStatusOffline : String := "offline"

/-- Node status constant `NodeStatusError = "error"`. -/
def NodeStatusError : String := "error"

/-- One registry record, from the Go struct `NodeInfo`. -/
structure NodeInfo where
  ID : String
  Name : String
  Address : String
  Mode : String
  Status : String
  CPU : ℚ
  Memory : ℚ
  Disk : ℚ
  Containers : ℕ
  LastSeen : ℤ
  Labels : List (String × String)
deriving DecidableEq, Repr

/-- The registry state: the Go map `nodes map[string]*NodeInfo`, as a list of
records in iteration order. -/
abbrev Registry : Type := List NodeInfo

/-- Go map assignment `nm.nodes[node.ID] = node`: replace the record stored
under the key if present, otherwise add the record under a fresh key. -/
def mapAssign (reg : Registry) (node : NodeInfo) : Registry :=
  if (List.any reg fun n => n.ID == node.ID) then
    List.map (fun n => if n.ID == node.ID then node else n) reg
  else
    reg ++ [node]

/-- `NodeManager.RegisterNode`: forces `LastSeen = now` and
`Status = online` on the caller-supplied record, stores it under its ID,
and returns `nil` error (second component `none`) unconditionally. -/
def RegisterNode (reg : Registry) (node : NodeInfo) (now : ℤ) :
    Registry × Option String :=
  (mapAssign reg { node with LastSeen := now, Status := NodeStatusOnline },
   none)

/-- `NodeManager.UpdateNodeStatus`: if a record with the given ID exists,
set its `Status` and refresh `LastSeen`; otherwise do nothing. -/
def UpdateNodeStatus (reg : Registry) (nodeID status : String) (now : ℤ) :
    Registry :=
  List.map
    (fun n =>
      if n.ID == nodeID then { n with Status := status, LastSeen := now }
      else n)
    reg

/-- `NodeManager.UpdateNodeResources`: if a record with the given ID exists,
set the four gauges and refresh `LastSeen`; otherwise do nothing. -/
def UpdateNodeResources (reg : Registry) (nodeID : String)
    (cpu memory disk : ℚ) (containers : ℕ) (now : ℤ) : Registry :=
  List.map
    (fun n =>
      if n.ID == nodeID then
        { n with CPU := cpu, Memory := memory, Disk := disk,
                 Containers := containers, LastSeen := now }
      else n)
    reg

/-- `NodeManager.GetAllNodes`: snapshot of all records. -/
def GetAllNodes (reg : Registry) : List NodeInfo := reg

/-- `NodeManager.GetNode`: lookup by ID; `(node, exists)` in Go. -/
def GetNode (reg : Registry) (nodeID : String) : Option NodeInfo :=
  List.find? (fun n => n.ID == nodeID) reg

/-- The load score `(node.CPU + node.Memory) / 2` from `SelectBestNode`. -/
def nodeLoad (node : NodeInfo) : ℚ := (node.CPU + node.Memory) / 2

/-- One iteration of the `SelectBestNode` loop: skip non-online nodes,
otherwise keep the node iff its load is strictly below the current minimum.
The accumulator is `(bestNode, minLoad)`. -/
def selectStep (acc : Option NodeInfo × ℚ) (node : NodeInfo) :
    Option NodeInfo × ℚ :=
  if node.Status = NodeStatusOnline then
    if nodeLoad node < acc.2 then (some node, nodeLoad node) else acc
  else acc

/-- `NodeManager.SelectBestNode`: scan the registry with `bestNode = nil`
and `minLoad = 100.0`; `none` stands for the
`"no available online node"` error return. -/
def SelectBestNode (reg : Registry) : Option NodeInfo :=
  (List.foldl selectStep (none, (100 : ℚ)) reg).1

/-- One record's treatment in `NodeManager.checkNodeHealth`: a record with
no heartbeat for more than 30 seconds that is currently online is marked
offline; every other record is untouched. -/
def healthCheckNode (now : ℤ) (node : NodeInfo) : NodeInfo :=
  if now - node.LastSeen > 30 then
    if node.Status = NodeStatusOnline then
      { node with Status := NodeStatusOffline }
    else node
  else node

/-- `NodeManager.checkNodeHealth`: one sweep of the heartbeat monitor over
the whole registry. -/
def checkNodeHealth (reg : Registry) (now : ℤ) : Registry :=
  List.map (healthCheckNode now) reg

/-- The minute-precision timestamp string
`t.Format("2006-01-02 15:04")`: two instants format equally iff they fall
in the same minute, so the formatted string is embedded as the decimal
rendering of the (floor) minute number of the instant. -/
def fmtMinute (t : ℤ) : String := toString (Int.fdiv t 60)

/-- `generateNodeTokenForTime`: the token for a node ID at a given
instant, `hmac(secret, nodeID ++ ":" ++ minute-format(t))` rendered as the
hex digest (the abstract `hmac` yields the digest string directly). -/
def generateNodeTokenForTime (hmac : String → String → String)
    (secret nodeID : String) (t : ℤ) : String :=
  hmac secret (nodeID ++ ":" ++ fmtMinute t)

/-- `generateNodeToken`: mint a token for a node ID at the current
instant. -/
def generateNodeToken (hmac : String → String → String)
    (secret nodeID : String) (now : ℤ) : String :=
  hmac secret (nodeID ++ ":" ++ fmtMinute now)

/-- `verifyNodeToken`: recompute the candidate tokens for `now - 1h`,
`now`, `now + 1h` (the loop `for i := -1; i <= 1; i++`, one hour being
3600 seconds) and accept iff the presented token equals one of them
(`hmac.Equal` is byte-for-byte equality of the strings). -/
def verifyNodeToken (hmac : String → String → String)
    (secret nodeID token : String) (now : ℤ) : Bool :=
  List.any [(-1 : ℤ), 0, 1] fun i =>
    token == generateNodeTokenForTime hmac secret nodeID (now + i * 3600)

/-- The parsed JSON body of a `POST /api/nodes/heartbeat` request, from the
anonymous struct in `handleNodeHeartbeat`. -/
structure HeartbeatBody where
  NodeID : String
  CPU : ℚ
  Memory : ℚ
  Disk : ℚ
  Containers : ℕ
deriving DecidableEq, Repr

/-- One heartbeat call as the master sees it: the two authentication
headers `X-Node-ID` and `X-Node-Token` read by `nodeAuthMiddleware`, and
the JSON body decoded by `handleNodeHeartbeat`. -/
structure HeartbeatCall where
  headerNodeID : String
  headerToken : String
  body : HeartbeatBody
deriving DecidableEq, Repr

/-- The registry effect of a heartbeat request flowing through
`nodeAuthMiddleware` and then `handleNodeHeartbeat`: missing headers or a
failing token check leave the registry untouched (the request is rejected
with 401), a non-master mode leaves it untouched (400), and otherwise the
body's `node_id` row is updated via `UpdateNodeResources`. -/
def heartbeatEndpoint (hmac : String → String → String) (secret : String)
    (mode : String) (reg : Registry) (call : HeartbeatCall) (now : ℤ) :
    Registry :=
  if call.headerNodeID = "" ∨ call.headerToken = "" then reg
  else if verifyNodeToken hmac secret call.headerNodeID call.headerToken now
  then
    if mode = ModeMaster then
      UpdateNodeResources reg call.body.NodeID call.body.CPU call.body.Memory
        call.body.Disk call.body.Containers now
    else reg
  else reg

/-- Sample record: node `A{cpu=10,mem=20}` of the spec's placement
example, load score 15. -/
def nodeA : NodeInfo :=
  { ID := "node-a", Name := "a", Address := "10.0.0.1:8080",
    Mode := ModeWorker, Status := NodeStatusOnline, CPU := 10, Memory := 20,
    Disk := 0, Containers := 0, LastSeen := 0, Labels := [] }

/-- Sample record: node `B{cpu=5,mem=80}` of the spec's placement
example, load score 42.5. -/
def nodeB : NodeInfo :=
  { ID := "node-b", Name := "b", Address := "10.0.0.2:8080",
    Mode := ModeWorker, Status := NodeStatusOnline, CPU := 5, Memory := 80,
    Disk := 0, Containers := 0, LastSeen := 0, Labels := [] }

/-- Sample record: an online node running at full load,
`cpu=100, mem=100`, load score exactly 100. -/
def nodeFull : NodeInfo :=
  { ID := "node-full", Name := "full", Address := "10.0.0.3:8080",
    Mode := ModeWorker, Status := NodeStatusOnline, CPU := 100,
    Memory := 100, Disk := 0, Containers := 0, LastSeen := 0, Labels := [] }

/-- Sample record: an offline node. -/
def nodeOff : NodeInfo :=
  { ID := "node-off", Name := "off", Address := "10.0.0.4:8080",
    Mode := ModeWorker, Status := NodeStatusOffline, CPU := 1, Memory := 1,
    Disk := 0, Containers := 0, LastSeen := 0, Labels := [] }

/-- A concrete stand-in for the keyed hash, used only to instantiate the
universally quantified token theorems at a computable point. -/
def hmacDemo (secret message : String) : String :=
  secret ++ "|" ++ message

/-- A shared-secret value for instantiating the token theorems. -/
def secretDemo : String := "cluster-secret"

/-- An ID under which no record is ever stored. -/
def idGhost : String := "ghost"

/-- Sample record: a stale earlier registration under node B's ID, with
different gauges, used to observe wholesale replacement. -/
def nodeBStale : NodeInfo :=
  { ID := "node-b", Name := "b-old", Address := "10.0.0.9:8080",
    Mode := ModeWorker, Status := NodeStatusOffline, CPU := 99, Memory := 98,
    Disk := 97, Containers := 42, LastSeen := 50,
    Labels := [("zone", "z1")] }

/-- A heartbeat body naming node B's registry row. -/
def bodyDemo : HeartbeatBody :=
  { NodeID := "node-b", CPU := 50, Memory := 60, Disk := 70, Containers := 3 }

/-- A heartbeat call authenticated with node A's identity and token but
whose body names node B. -/
def callDemo1 : HeartbeatCall :=
  { headerNodeID := "node-a",
    headerToken := generateNodeToken hmacDemo secretDemo nodeA.ID 0,
    body := bodyDemo }

/-- The same heartbeat body authenticated with node B's identity. -/
def callDemo2 : HeartbeatCall :=
  { headerNodeID := "node-b",
    headerToken := generateNodeToken hmacDemo secretDemo nodeB.ID 0,
    body := bodyDemo }

section SelectProofs

attribute [local semireducible] Rat.add Rat.mul Rat.inv Rat.sub

/-- One selection step never increases the running minimum load. -/
theorem selectStep_snd_le (acc : Option NodeInfo × ℚ) (node : NodeInfo) :
    (selectStep acc node).2 ≤ acc.2 := by
  unfold selectStep
  split_ifs with h1 h2
  · exact le_of_lt h2
  · exact le_refl _
  · exact le_refl _

/-- The selection fold never increases the running minimum load. -/
theorem selectFold_snd_le (l : List NodeInfo) (acc : Option NodeInfo × ℚ) :
    (List.foldl selectStep acc l).2 ≤ acc.2 := by
  induction l generalizing acc with
  | nil => exact le_refl _
  | cons x xs ih =>
      calc (List.foldl selectStep acc (x :: xs)).2
          = (List.foldl selectStep (selectStep acc x) xs).2 := by
            rw [List.foldl_cons]
        _ ≤ (selectStep acc x).2 := ih _
        _ ≤ acc.2 := selectStep_snd_le acc x

/-- After the selection fold, the running minimum is at most the load of
every online node that was scanned. -/
theorem selectFold_snd_le_load (l : List NodeInfo) (acc : Option NodeInfo × ℚ) :
    ∀ n ∈ l, n.Status = NodeStatusOnline →
      (List.foldl selectStep acc l).2 ≤ nodeLoad n := by
  induction l generalizing acc with
  | nil =>
      intro n hn
      exact absurd hn (List.not_mem_nil n)
  | cons x xs ih =>
      intro n hn hon
      rw [List.foldl_cons]
      rcases List.mem_cons.mp hn with h | h
      · subst h
        have hstep : (selectStep acc n).2 ≤ nodeLoad n := by
          unfold selectStep
          rw [if_pos hon]
          split_ifs with h2
          · exact le_refl _
          · exact le_of_not_lt h2
        exact le_trans (selectFold_snd_le xs (selectStep acc n)) hstep
      · exact ih (selectStep acc x) n h hon

/-- The selection fold either leaves the accumulator untouched or ends on
the pair `(some n, nodeLoad n)` for an online node `n` it scanned. -/
theorem selectFold_provenance (l : List NodeInfo) (acc : Option NodeInfo × ℚ) :
    List.foldl selectStep acc l = acc ∨
      ∃ n ∈ l, n.Status = NodeStatusOnline ∧
        List.foldl selectStep acc l = (some n, nodeLoad n) := by
  induction l generalizing acc with
  | nil => exact Or.inl rfl
  | cons x xs ih =>
      rw [List.foldl_cons]
      rcases ih (selectStep acc x) with h | ⟨n, hn, hon, heq⟩
      · rw [h]
        unfold selectStep
        split_ifs with h1 h2
        · exact Or.inr ⟨x, List.mem_cons_self x xs, h1, rfl⟩
        · exact Or.inl rfl
        · exact Or.inl rfl
      · exact Or.inr ⟨n, List.mem_cons_of_mem x hn, hon, heq⟩

/-- If no scanned node is online, the selection fold keeps its
accumulator. -/
theorem selectFold_no_online (l : List NodeInfo) :
    ∀ acc : Option NodeInfo × ℚ,
      (∀ n ∈ l, n.Status ≠ NodeStatusOnline) →
      List.foldl selectStep acc l = acc := by
  induction l with
  | nil =>
      intro acc _
      rfl
  | cons x xs ih =>
      intro acc h
      rw [List.foldl_cons]
      have hx : selectStep acc x = acc := by
        unfold selectStep
        rw [if_neg (h x (List.mem_cons_self x xs))]
      rw [hx]
      exact ih acc fun n hn => h n (List.mem_cons_of_mem x hn)

/-- C2: over a registry with no online record — the empty registry
included — `SelectBestNode` returns no node and reports the
no-online-node error (modelled as `none`). -/
theorem selectBestNode_no_online_none (reg : Registry)
    (h : ∀ n ∈ reg, n.Status ≠ NodeStatusOnline) :
    SelectBestNode reg = none := by
  unfold SelectBestNode
  rw [selectFold_no_online reg _ h]

/-- Witness for C2 at the empty registry and at an all-offline registry. -/
theorem selectBestNode_no_online_none_witness :
    SelectBestNode ([] : Registry) = none ∧
      SelectBestNode [nodeOff] = none :=
  ⟨selectBestNode_no_online_none [] (by simp),
   selectBestNode_no_online_none [nodeOff] (by decide)⟩

/-- C1 counterexample: `nodeFull` is online, yet `SelectBestNode` over the
registry holding exactly it returns no node, because the scan starts from
`minLoad = 100` and only accepts strictly smaller scores, and
`nodeLoad nodeFull = 100`. -/
theorem selectBestNode_full_load_refute :
    nodeFull.Status = NodeStatusOnline ∧ SelectBestNode [nodeFull] = none := by
  constructor
  · rfl
  · decide

/-- C1 (amended): whenever some online record scores strictly below 100,
`SelectBestNode` returns an online record of the registry whose load score
is at most the score of every online record. -/
theorem selectBestNode_min_load (reg : Registry)
    (h : ∃ n ∈ reg, n.Status = NodeStatusOnline ∧ nodeLoad n < 100) :
    ∃ r, SelectBestNode reg = some r ∧ r ∈ reg ∧
      r.Status = NodeStatusOnline ∧
      ∀ n ∈ reg, n.Status = NodeStatusOnline → nodeLoad r ≤ nodeLoad n := by
  obtain ⟨n0, hn0, hon0, hload0⟩ := h
  have hle : (List.foldl selectStep (none, (100 : ℚ)) reg).2 ≤ nodeLoad n0 :=
    selectFold_snd_le_load reg _ n0 hn0 hon0
  rcases selectFold_provenance reg (none, (100 : ℚ)) with heq | ⟨r, hr, hron, heq⟩
  · exfalso
    rw [heq] at hle
    exact absurd (lt_of_le_of_lt hle hload0) (lt_irrefl _)
  · refine ⟨r, ?h1, hr, hron, ?h2⟩
    · unfold SelectBestNode
      rw [heq]
    · intro n hn hon
      have hb := selectFold_snd_le_load reg (none, (100 : ℚ)) n hn hon
      rw [heq] at hb
      exact hb

/-- Witness for C1 (amended) on the spec's two-node example; the selected
record is node A. -/
theorem selectBestNode_min_load_witness :
    SelectBestNode [nodeA, nodeB] = some nodeA ∧
      ∃ r, SelectBestNode [nodeA, nodeB] = some r ∧ r ∈ [nodeA, nodeB] ∧
        r.Status = NodeStatusOnline ∧
        ∀ n ∈ [nodeA, nodeB], n.Status = NodeStatusOnline →
          nodeLoad r ≤ nodeLoad n :=
  ⟨by decide,
   selectBestNode_min_load [nodeA, nodeB] ⟨nodeA, by decide, by decide, by decide⟩⟩

end SelectProofs

section RegistryProofs

attribute [local semireducible] Rat.add Rat.mul Rat.inv Rat.sub

/-- A predicate that holds of no list element finds nothing. -/
theorem find?_eq_none_of_any_false (p : NodeInfo → Bool) (reg : List NodeInfo)
    (hany : List.any reg p = false) :
    List.find? p reg = none := by
  induction reg with
  | nil => rfl
  | cons x xs ih =>
      simp only [List.any_cons, Bool.or_eq_false_iff] at hany
      simp [List.find?, hany.1, ih hany.2]

/-- Looking up the updated key after a keyed in-place update returns the
updated record. -/
theorem find?_update_eq (targetID : String) (g : NodeInfo → NodeInfo)
    (hg : ∀ n : NodeInfo, n.ID = targetID → (g n).ID = targetID)
    (reg : List NodeInfo) :
    List.find? (fun n => n.ID == targetID)
        (List.map (fun n => if n.ID == targetID then g n else n) reg) =
      Option.map g (List.find? (fun n => n.ID == targetID) reg) := by
  induction reg with
  | nil => rfl
  | cons x xs ih =>
      by_cases hx : x.ID = targetID
      · have hxb : (x.ID == targetID) = true := by simp [hx]
        have hgb : ((g x).ID == targetID) = true := by simp [hg x hx]
        rw [List.map_cons, if_pos hxb,
          @List.find?_cons_of_pos _ (fun n => n.ID == targetID) (g x) _ hgb,
          @List.find?_cons_of_pos _ (fun n => n.ID == targetID) x _ hxb]
        rfl
      · have hxb : (x.ID == targetID) = false := beq_eq_false_iff_ne.mpr hx
        rw [List.map_cons, if_neg (by simp [hxb]),
          @List.find?_cons_of_neg _ (fun n => n.ID == targetID) x _
            (by simp [hxb]),
          @List.find?_cons_of_neg _ (fun n => n.ID == targetID) x _
            (by simp [hxb]), ih]

/-- Looking up a different key after a keyed in-place update is unchanged. -/
theorem find?_update_ne (targetID id2 : String) (hne : id2 ≠ targetID)
    (g : NodeInfo → NodeInfo)
    (hg : ∀ n : NodeInfo, n.ID = targetID → (g n).ID = targetID)
    (reg : List NodeInfo) :
    List.find? (fun n => n.ID == id2)
        (List.map (fun n => if n.ID == targetID then g n else n) reg) =
      List.find? (fun n => n.ID == id2) reg := by
  induction reg with
  | nil => rfl
  | cons x xs ih =>
      by_cases hx : x.ID = targetID
      · have hxb : (x.ID == targetID) = true := by simp [hx]
        have h2 : ((g x).ID == id2) = false := by
          rw [hg x hx]
          exact beq_eq_false_iff_ne.mpr (Ne.symm hne)
        have h3 : (x.ID == id2) = false := by
          rw [hx]
          exact beq_eq_false_iff_ne.mpr (Ne.symm hne)
        rw [List.map_cons, if_pos hxb,
          @List.find?_cons_of_neg _ (fun n => n.ID == id2) (g x) _
            (by simp [h2]),
          @List.find?_cons_of_neg _ (fun n => n.ID == id2) x _ (by simp [h3]),
          ih]
      · have hxb : (x.ID == targetID) = false := beq_eq_false_iff_ne.mpr hx
        rw [List.map_cons, if_neg (by simp [hxb])]
        by_cases hpx : x.ID = id2
        · have hpb : (x.ID == id2) = true := by simp [hpx]
          rw [@List.find?_cons_of_pos _ (fun n => n.ID == id2) x _ hpb,
            @List.find?_cons_of_pos _ (fun n => n.ID == id2) x _ hpb]
        · have hpb : (x.ID == id2) = false := beq_eq_false_iff_ne.mpr hpx
          rw [@List.find?_cons_of_neg _ (fun n => n.ID == id2) x _
              (by simp [hpb]),
            @List.find?_cons_of_neg _ (fun n => n.ID == id2) x _
              (by simp [hpb]), ih]

/-- Storing a record under its key makes it the record found there. -/
theorem getNode_mapAssign_self (reg : Registry) (node : NodeInfo) :
    GetNode (mapAssign reg node) node.ID = some node := by
  unfold mapAssign GetNode
  by_cases hany : List.any reg (fun n => n.ID == node.ID) = true
  · rw [if_pos hany]
    rw [find?_update_eq node.ID (fun _ => node) (fun _ _ => rfl) reg]
    have hsome : (List.find? (fun n => n.ID == node.ID) reg).isSome := by
      rw [List.find?_isSome]
      simpa using List.any_eq_true.mp hany
    obtain ⟨y, hy⟩ := Option.isSome_iff_exists.mp hsome
    rw [hy]
    rfl
  · rw [if_neg hany]
    have hf : List.any reg (fun n => n.ID == node.ID) = false := by
      simpa using hany
    have hself : (node.ID == node.ID) = true := beq_self_eq_true node.ID
    rw [List.find?_append, find?_eq_none_of_any_false _ reg hf,
      @List.find?_cons_of_pos _ (fun n => n.ID == node.ID) node _ hself]
    rfl

/-- Storing a record under its key leaves every other key's lookup
unchanged. -/
theorem getNode_mapAssign_ne (reg : Registry) (node : NodeInfo) (id2 : String)
    (hne : id2 ≠ node.ID) :
    GetNode (mapAssign reg node) id2 = GetNode reg id2 := by
  unfold mapAssign GetNode
  by_cases hany : List.any reg (fun n => n.ID == node.ID) = true
  · rw [if_pos hany]
    exact find?_update_ne node.ID id2 hne (fun _ => node) (fun _ _ => rfl) reg
  · rw [if_neg hany, List.find?_append]
    have hb : (node.ID == id2) = false := beq_eq_false_iff_ne.mpr (Ne.symm hne)
    have hnone : List.find? (fun n => n.ID == id2) [node] = none := by
      rw [@List.find?_cons_of_neg _ (fun n => n.ID == id2) node _
        (by simp [hb])]
      rfl
    rw [hnone, Option.or_none]

/-- C3: registration always succeeds (the returned error is `nil`), stores
exactly the supplied record under its ID with `Status` forced to online
and `LastSeen` forced to `now` — wholesale, so no prior gauge survives —
and touches no other ID. -/
theorem registerNode_spec (reg : Registry) (node : NodeInfo) (now : ℤ) :
    (RegisterNode reg node now).2 = none ∧
      GetNode (RegisterNode reg node now).1 node.ID =
        some { node with LastSeen := now, Status := NodeStatusOnline } ∧
      ∀ id2 : String, id2 ≠ node.ID →
        GetNode (RegisterNode reg node now).1 id2 = GetNode reg id2 := by
  refine ⟨rfl, ?h1, ?h2⟩
  · exact getNode_mapAssign_self reg _
  · intro id2 hne
    exact getNode_mapAssign_ne reg _ id2 hne

/-- Witness for C3: registering the offline `nodeOff` record forces it
online with the registration instant, and re-registering node B's ID over
a stale record with different gauges replaces that record wholesale. -/
theorem registerNode_spec_witness :
    GetNode (RegisterNode [nodeA] nodeOff 7).1 nodeOff.ID =
        some { nodeOff with LastSeen := 7, Status := NodeStatusOnline } ∧
      GetNode (RegisterNode [nodeA] nodeOff 7).1 nodeA.ID =
        GetNode [nodeA] nodeA.ID ∧
      GetNode (RegisterNode [nodeBStale] nodeB 7).1 nodeB.ID =
        some { nodeB with LastSeen := 7, Status := NodeStatusOnline } :=
  ⟨(registerNode_spec [nodeA] nodeOff 7).2.1,
   (registerNode_spec [nodeA] nodeOff 7).2.2 nodeA.ID (by decide),
   (registerNode_spec [nodeBStale] nodeB 7).2.1⟩

/-- C4: a resource update for an unknown ID is a complete no-op on the
registry, and for a known ID it rewrites exactly the four gauges and
`LastSeen` of that record, leaving every other ID's lookup unchanged. -/
theorem updateNodeResources_spec (reg : Registry) (nodeID : String)
    (cpu memory disk : ℚ) (containers : ℕ) (now : ℤ) :
    ((∀ n ∈ reg, n.ID ≠ nodeID) →
        UpdateNodeResources reg nodeID cpu memory disk containers now = reg) ∧
      (∀ r : NodeInfo, GetNode reg nodeID = some r →
        GetNode (UpdateNodeResources reg nodeID cpu memory disk containers now)
            nodeID =
          some { r with CPU := cpu, Memory := memory, Disk := disk,
                        Containers := containers, LastSeen := now }) ∧
      ∀ id2 : String, id2 ≠ nodeID →
        GetNode (UpdateNodeResources reg nodeID cpu memory disk containers now)
            id2 = GetNode reg id2 := by
  refine ⟨?h1, ?h2, ?h3⟩
  · intro h
    unfold UpdateNodeResources
    have hid : ∀ n ∈ reg,
        (if n.ID == nodeID then
          { n with CPU := cpu, Memory := memory, Disk := disk,
                   Containers := containers, LastSeen := now }
         else n) = n := by
      intro n hn
      rw [if_neg (by simp [h n hn])]
    rw [List.map_congr_left hid]
    simp
  · intro r hr
    unfold UpdateNodeResources GetNode
    rw [find?_update_eq nodeID
      (fun n =>
        { n with CPU := cpu, Memory := memory, Disk := disk,
                 Containers := containers, LastSeen := now })
      (fun n hn => hn) reg]
    unfold GetNode at hr
    rw [hr]
    rfl
  · intro id2 hne
    unfold UpdateNodeResources GetNode
    exact find?_update_ne nodeID id2 hne
      (fun n =>
        { n with CPU := cpu, Memory := memory, Disk := disk,
                 Containers := containers, LastSeen := now })
      (fun n hn => hn) reg

/-- Witness for C4: updating a never-registered ID leaves the registry
literally unchanged, and updating node A rewrites its gauges and
`LastSeen` without touching node B. -/
theorem updateNodeResources_spec_witness :
    UpdateNodeResources [nodeA] idGhost 1 2 3 4 5 = [nodeA] ∧
      GetNode (UpdateNodeResources [nodeA, nodeB] nodeA.ID 50 60 70 8 9)
          nodeA.ID =
        some { nodeA with CPU := 50, Memory := 60, Disk := 70,
                          Containers := 8, LastSeen := 9 } ∧
      GetNode (UpdateNodeResources [nodeA, nodeB] nodeA.ID 50 60 70 8 9)
          nodeB.ID = GetNode [nodeA, nodeB] nodeB.ID :=
  ⟨(updateNodeResources_spec [nodeA] idGhost 1 2 3 4 5).1 (by decide),
   (updateNodeResources_spec [nodeA, nodeB] nodeA.ID 50 60 70 8 9).2.1 nodeA
     (by decide),
   (updateNodeResources_spec [nodeA, nodeB] nodeA.ID 50 60 70 8 9).2.2
     nodeB.ID (by decide)⟩

end RegistryProofs

section HealthProofs

attribute [local semireducible] Rat.add Rat.mul Rat.inv Rat.sub

/-- Pointwise status behaviour of one sweep step: a stale online record is
marked offline, any other record keeps its status, and no record is ever
moved to online. -/
theorem healthCheckNode_status (now : ℤ) (n : NodeInfo) :
    ((n.Status = NodeStatusOnline ∧ now - n.LastSeen > 30) →
        (healthCheckNode now n).Status = NodeStatusOffline) ∧
      (¬(n.Status = NodeStatusOnline ∧ now - n.LastSeen > 30) →
        (healthCheckNode now n).Status = n.Status) ∧
      ((healthCheckNode now n).Status = NodeStatusOnline →
        n.Status = NodeStatusOnline) := by
  unfold healthCheckNode
  split_ifs with ht hs
  · exact ⟨fun _ => rfl, fun hnot => absurd ⟨hs, ht⟩ hnot,
      fun h3 =>
        absurd (show NodeStatusOffline = NodeStatusOnline from h3)
          (by decide)⟩
  · exact ⟨fun h3 => absurd h3.1 hs, fun _ => rfl, fun h3 => h3⟩
  · exact ⟨fun h3 => absurd h3.2 ht, fun _ => rfl, fun h3 => h3⟩

/-- Pointwise frame of one sweep step: every field other than `Status` is
left untouched. -/
theorem healthCheckNode_frame (now : ℤ) (n : NodeInfo) :
    (healthCheckNode now n).ID = n.ID ∧
      (healthCheckNode now n).Name = n.Name ∧
      (healthCheckNode now n).Address = n.Address ∧
      (healthCheckNode now n).Mode = n.Mode ∧
      (healthCheckNode now n).CPU = n.CPU ∧
      (healthCheckNode now n).Memory = n.Memory ∧
      (healthCheckNode now n).Disk = n.Disk ∧
      (healthCheckNode now n).Containers = n.Containers ∧
      (healthCheckNode now n).LastSeen = n.LastSeen ∧
      (healthCheckNode now n).Labels = n.Labels := by
  unfold healthCheckNode
  split_ifs <;> simp

/-- C5: a heartbeat-monitor sweep marks offline exactly the records that
are online with a last heartbeat more than 30 seconds old; every other
record keeps its status, and no record is ever switched to online by a
sweep. -/
theorem checkNodeHealth_status_spec (reg : Registry) (now : ℤ) (i : ℕ)
    (h : i < reg.length) :
    ∃ h2 : i < (checkNodeHealth reg now).length,
      (((reg.get ⟨i, h⟩).Status = NodeStatusOnline ∧
          now - (reg.get ⟨i, h⟩).LastSeen > 30) →
        ((checkNodeHealth reg now).get ⟨i, h2⟩).Status = NodeStatusOffline) ∧
      (¬((reg.get ⟨i, h⟩).Status = NodeStatusOnline ∧
          now - (reg.get ⟨i, h⟩).LastSeen > 30) →
        ((checkNodeHealth reg now).get ⟨i, h2⟩).Status =
          (reg.get ⟨i, h⟩).Status) ∧
      (((checkNodeHealth reg now).get ⟨i, h2⟩).Status = NodeStatusOnline →
        (reg.get ⟨i, h⟩).Status = NodeStatusOnline) := by
  have hlen : (checkNodeHealth reg now).length = reg.length := by
    simp [checkNodeHealth]
  have h2 : i < (checkNodeHealth reg now).length := by
    rw [hlen]
    exact h
  have hget : (checkNodeHealth reg now).get ⟨i, h2⟩ =
      healthCheckNode now (reg.get ⟨i, h⟩) := by
    simp [checkNodeHealth]
  obtain ⟨ha, hb, hc⟩ := healthCheckNode_status now (reg.get ⟨i, h⟩)
  refine ⟨h2, ?p1, ?p2, ?p3⟩
  · rw [hget]
    exact ha
  · rw [hget]
    exact hb
  · rw [hget]
    exact hc

/-- Witness for C5: one online record last seen at time 0, swept at time
100, is marked offline. -/
theorem checkNodeHealth_status_spec_witness :
    ∃ h2 : 0 < (checkNodeHealth [nodeA] 100).length,
      ((([nodeA] : Registry).get ⟨0, by decide⟩).Status = NodeStatusOnline ∧
          100 - (([nodeA] : Registry).get ⟨0, by decide⟩).LastSeen > 30 →
        ((checkNodeHealth [nodeA] 100).get ⟨0, h2⟩).Status =
          NodeStatusOffline) ∧
      (¬((([nodeA] : Registry).get ⟨0, by decide⟩).Status = NodeStatusOnline ∧
          100 - (([nodeA] : Registry).get ⟨0, by decide⟩).LastSeen > 30) →
        ((checkNodeHealth [nodeA] 100).get ⟨0, h2⟩).Status =
          (([nodeA] : Registry).get ⟨0, by decide⟩).Status) ∧
      (((checkNodeHealth [nodeA] 100).get ⟨0, h2⟩).Status =
          NodeStatusOnline →
        (([nodeA] : Registry).get ⟨0, by decide⟩).Status =
          NodeStatusOnline) :=
  checkNodeHealth_status_spec [nodeA] 100 0 (by decide)

/-- C6: when a sweep moves a record from online to offline, its
`LastSeen` and every field other than `Status` are unchanged. -/
theorem checkNodeHealth_frame_spec (reg : Registry) (now : ℤ) (i : ℕ)
    (h : i < reg.length) :
    ∃ h2 : i < (checkNodeHealth reg now).length,
      (reg.get ⟨i, h⟩).Status = NodeStatusOnline →
      ((checkNodeHealth reg now).get ⟨i, h2⟩).Status = NodeStatusOffline →
      ((checkNodeHealth reg now).get ⟨i, h2⟩).ID = (reg.get ⟨i, h⟩).ID ∧
        ((checkNodeHealth reg now).get ⟨i, h2⟩).Name =
          (reg.get ⟨i, h⟩).Name ∧
        ((checkNodeHealth reg now).get ⟨i, h2⟩).Address =
          (reg.get ⟨i, h⟩).Address ∧
        ((checkNodeHealth reg now).get ⟨i, h2⟩).Mode =
          (reg.get ⟨i, h⟩).Mode ∧
        ((checkNodeHealth reg now).get ⟨i, h2⟩).CPU =
          (reg.get ⟨i, h⟩).CPU ∧
        ((checkNodeHealth reg now).get ⟨i, h2⟩).Memory =
          (reg.get ⟨i, h⟩).Memory ∧
        ((checkNodeHealth reg now).get ⟨i, h2⟩).Disk =
          (reg.get ⟨i, h⟩).Disk ∧
        ((checkNodeHealth reg now).get ⟨i, h2⟩).Containers =
          (reg.get ⟨i, h⟩).Containers ∧
        ((checkNodeHealth reg now).get ⟨i, h2⟩).LastSeen =
          (reg.get ⟨i, h⟩).LastSeen ∧
        ((checkNodeHealth reg now).get ⟨i, h2⟩).Labels =
          (reg.get ⟨i, h⟩).Labels := by
  have hlen : (checkNodeHealth reg now).length = reg.length := by
    simp [checkNodeHealth]
  have h2 : i < (checkNodeHealth reg now).length := by
    rw [hlen]
    exact h
  have hget : (checkNodeHealth reg now).get ⟨i, h2⟩ =
      healthCheckNode now (reg.get ⟨i, h⟩) := by
    simp [checkNodeHealth]
  refine ⟨h2, fun _ _ => ?frame⟩
  rw [hget]
  exact healthCheckNode_frame now (reg.get ⟨i, h⟩)

/-- Witness for C6 on the stale online record swept at time 100. -/
theorem checkNodeHealth_frame_spec_witness :
    ∃ h2 : 0 < (checkNodeHealth [nodeA] 100).length,
      (([nodeA] : Registry).get ⟨0, by decide⟩).Status = NodeStatusOnline →
      ((checkNodeHealth [nodeA] 100).get ⟨0, h2⟩).Status =
        NodeStatusOffline →
      ((checkNodeHealth [nodeA] 100).get ⟨0, h2⟩).ID =
          (([nodeA] : Registry).get ⟨0, by decide⟩).ID ∧
        ((checkNodeHealth [nodeA] 100).get ⟨0, h2⟩).Name =
          (([nodeA] : Registry).get ⟨0, by decide⟩).Name ∧
        ((checkNodeHealth [nodeA] 100).get ⟨0, h2⟩).Address =
          (([nodeA] : Registry).get ⟨0, by decide⟩).Address ∧
        ((checkNodeHealth [nodeA] 100).get ⟨0, h2⟩).Mode =
          (([nodeA] : Registry).get ⟨0, by decide⟩).Mode ∧
        ((checkNodeHealth [nodeA] 100).get ⟨0, h2⟩).CPU =
          (([nodeA] : Registry).get ⟨0, by decide⟩).CPU ∧
        ((checkNodeHealth [nodeA] 100).get ⟨0, h2⟩).Memory =
          (([nodeA] : Registry).get ⟨0, by decide⟩).Memory ∧
        ((checkNodeHealth [nodeA] 100).get ⟨0, h2⟩).Disk =
          (([nodeA] : Registry).get ⟨0, by decide⟩).Disk ∧
        ((checkNodeHealth [nodeA] 100).get ⟨0, h2⟩).Containers =
          (([nodeA] : Registry).get ⟨0, by decide⟩).Containers ∧
        ((checkNodeHealth [nodeA] 100).get ⟨0, h2⟩).LastSeen =
          (([nodeA] : Registry).get ⟨0, by decide⟩).LastSeen ∧
        ((checkNodeHealth [nodeA] 100).get ⟨0, h2⟩).Labels =
          (([nodeA] : Registry).get ⟨0, by decide⟩).Labels :=
  checkNodeHealth_frame_spec [nodeA] 100 0 (by decide)

end HealthProofs

section InvariantProofs

attribute [local semireducible] Rat.add Rat.mul Rat.inv Rat.sub

/-- A keyed in-place update of the registry keeps the list of stored IDs
exactly as it was. -/
theorem map_ID_of_update (reg : List NodeInfo) (f : NodeInfo → NodeInfo)
    (hf : ∀ n ∈ reg, (f n).ID = n.ID) :
    List.map (fun n => n.ID) (List.map f reg) =
      List.map (fun n => n.ID) reg := by
  rw [List.map_map]
  exact List.map_congr_left fun n hn => hf n hn

/-- C9: no registry operation removes a record — every stored ID is still
stored after registration, and status updates, resource updates, and
monitor sweeps keep the ID list exactly; registration is the only
operation that can add an ID, namely the registered record's own. The
read operations (`GetNode`, `GetAllNodes`, `SelectBestNode`) take no
write lock and return without touching the registry. -/
theorem registry_never_removes (reg : Registry) (node : NodeInfo)
    (nodeID status : String) (cpu memory disk : ℚ) (containers : ℕ)
    (t1 t2 t3 t4 : ℤ) :
    (∀ x ∈ List.map (fun n => n.ID) reg,
        x ∈ List.map (fun n => n.ID) (RegisterNode reg node t1).1) ∧
      (∀ x ∈ List.map (fun n => n.ID) (RegisterNode reg node t1).1,
        x ∈ List.map (fun n => n.ID) reg ∨ x = node.ID) ∧
      List.map (fun n => n.ID) (UpdateNodeStatus reg nodeID status t2) =
        List.map (fun n => n.ID) reg ∧
      List.map (fun n => n.ID)
          (UpdateNodeResources reg nodeID cpu memory disk containers t3) =
        List.map (fun n => n.ID) reg ∧
      List.map (fun n => n.ID) (checkNodeHealth reg t4) =
        List.map (fun n => n.ID) reg ∧
      GetAllNodes reg = reg := by
  have hassign : ∀ m : NodeInfo,
      List.map (fun n => n.ID) (mapAssign reg m) =
          List.map (fun n => n.ID) reg ∨
        List.map (fun n => n.ID) (mapAssign reg m) =
          List.map (fun n => n.ID) reg ++ [m.ID] := by
    intro m
    unfold mapAssign
    by_cases hany : List.any reg (fun n => n.ID == m.ID) = true
    · rw [if_pos hany]
      left
      refine map_ID_of_update reg _ fun n hn => ?ptwise
      by_cases hn2 : n.ID = m.ID
      · rw [if_pos (by simp [hn2])]
        exact hn2.symm
      · rw [if_neg (by simp [hn2])]
    · rw [if_neg hany]
      right
      rw [List.map_append]
      rfl
  refine ⟨?r1, ?r2, ?u1, ?u2, ?hc, rfl⟩
  · intro x hx
    rcases hassign { node with LastSeen := t1, Status := NodeStatusOnline }
      with he | he
    · unfold RegisterNode
      rw [he]
      exact hx
    · unfold RegisterNode
      rw [he]
      exact List.mem_append_left _ hx
  · intro x hx
    rcases hassign { node with LastSeen := t1, Status := NodeStatusOnline }
      with he | he
    · unfold RegisterNode at hx
      rw [he] at hx
      exact Or.inl hx
    · unfold RegisterNode at hx
      rw [he] at hx
      rcases List.mem_append.mp hx with hx2 | hx2
      · exact Or.inl hx2
      · right
        simpa using hx2
  · refine map_ID_of_update reg _ fun n hn => ?pt2
    by_cases hn2 : n.ID = nodeID
    · rw [if_pos (by simp [hn2])]
    · rw [if_neg (by simp [hn2])]
  · refine map_ID_of_update reg _ fun n hn => ?pt3
    by_cases hn2 : n.ID = nodeID
    · rw [if_pos (by simp [hn2])]
    · rw [if_neg (by simp [hn2])]
  · refine map_ID_of_update reg _ fun n hn => ?pt4
    unfold healthCheckNode
    split_ifs <;> rfl

/-- Witness for C9: after registering node B over a one-record registry,
node A's ID is still stored; a sweep leaves the stored IDs unchanged. -/
theorem registry_never_removes_witness :
    nodeA.ID ∈ List.map (fun n => n.ID) (RegisterNode [nodeA] nodeB 5).1 ∧
      List.map (fun n => n.ID) (checkNodeHealth [nodeA] 100) =
        List.map (fun n => n.ID) [nodeA] := by
  have h := registry_never_removes [nodeA] nodeB idGhost NodeStatusError
    1 2 3 4 5 6 7 8
  exact ⟨h.1 nodeA.ID (by decide), h.2.2.2.2.1⟩

end InvariantProofs

section TokenProofs

/-- C7: token verification accepts exactly the tokens equal to the
minute-precision candidate for one of the three instants one hour before,
at, and one hour after the verification time (the comparison `hmac.Equal`
is byte equality of the digest strings, embedded as string equality). -/
theorem verifyNodeToken_iff_candidates (hmac : String → String → String)
    (secret nodeID token : String) (now : ℤ) :
    verifyNodeToken hmac secret nodeID token now = true ↔
      (token = generateNodeTokenForTime hmac secret nodeID (now - 3600) ∨
        token = generateNodeTokenForTime hmac secret nodeID now ∨
        token = generateNodeTokenForTime hmac secret nodeID (now + 3600)) := by
  have e1 : now + (-1 : ℤ) * 3600 = now - 3600 := by ring
  have e2 : now + (0 : ℤ) * 3600 = now := by ring
  have e3 : now + (1 : ℤ) * 3600 = now + 3600 := by ring
  have e4 : now + (-3600 : ℤ) = now - 3600 := by ring
  simp [verifyNodeToken, e1, e2, e3, e4]

/-- C8: a token minted for a node at time `T` verifies at the same
time `T`. -/
theorem generateNodeToken_verify_roundtrip (hmac : String → String → String)
    (secret nodeID : String) (now : ℤ) :
    verifyNodeToken hmac secret nodeID
        (generateNodeToken hmac secret nodeID now) now = true := by
  have e2 : now + (0 : ℤ) * 3600 = now := by ring
  simp [verifyNodeToken, generateNodeToken, generateNodeTokenForTime, e2]

/-- C10: the registry effect of the heartbeat endpoint depends only on the
request body: two authenticated heartbeat requests with the same body
produce the same registry state even when their `X-Node-ID` headers name
different nodes, and on a master that effect is exactly a resource update
of the node named in the body. -/
theorem heartbeat_header_independent (hmac : String → String → String)
    (secret mode : String) (reg : Registry) (c1 c2 : HeartbeatCall)
    (now : ℤ) (hbody : c1.body = c2.body)
    (h1id : c1.headerNodeID ≠ "") (h1tok : c1.headerToken ≠ "")
    (h2id : c2.headerNodeID ≠ "") (h2tok : c2.headerToken ≠ "")
    (hv1 : verifyNodeToken hmac secret c1.headerNodeID c1.headerToken now =
      true)
    (hv2 : verifyNodeToken hmac secret c2.headerNodeID c2.headerToken now =
      true) :
    heartbeatEndpoint hmac secret mode reg c1 now =
        heartbeatEndpoint hmac secret mode reg c2 now ∧
      (mode = ModeMaster →
        heartbeatEndpoint hmac secret mode reg c1 now =
          UpdateNodeResources reg c1.body.NodeID c1.body.CPU c1.body.Memory
            c1.body.Disk c1.body.Containers now) := by
  have hr1 : heartbeatEndpoint hmac secret mode reg c1 now =
      if mode = ModeMaster then
        UpdateNodeResources reg c1.body.NodeID c1.body.CPU c1.body.Memory
          c1.body.Disk c1.body.Containers now
      else reg := by
    unfold heartbeatEndpoint
    rw [if_neg (not_or.mpr ⟨h1id, h1tok⟩), if_pos hv1]
  have hr2 : heartbeatEndpoint hmac secret mode reg c2 now =
      if mode = ModeMaster then
        UpdateNodeResources reg c2.body.NodeID c2.body.CPU c2.body.Memory
          c2.body.Disk c2.body.Containers now
      else reg := by
    unfold heartbeatEndpoint
    rw [if_neg (not_or.mpr ⟨h2id, h2tok⟩), if_pos hv2]
  constructor
  · rw [hr1, hr2, hbody]
  · intro hm
    rw [hr1, if_pos hm]

/-- Witness for C10: a heartbeat naming node B in the body, authenticated
once with node A's identity and token and once with node B's, yields the
same registry; the effect is node B's resource update. -/
theorem heartbeat_header_independent_witness :
    heartbeatEndpoint hmacDemo secretDemo ModeMaster [nodeA, nodeB]
        callDemo1 0 =
      heartbeatEndpoint hmacDemo secretDemo ModeMaster [nodeA, nodeB]
        callDemo2 0 ∧
      heartbeatEndpoint hmacDemo secretDemo ModeMaster [nodeA, nodeB]
          callDemo1 0 =
        UpdateNodeResources [nodeA, nodeB] callDemo1.body.NodeID
          callDemo1.body.CPU callDemo1.body.Memory callDemo1.body.Disk
          callDemo1.body.Containers 0 := by
  have h := heartbeat_header_independent hmacDemo secretDemo ModeMaster
    [nodeA, nodeB] callDemo1 callDemo2 0 rfl (by decide) (by decide)
    (by decide) (by decide) (by decide) (by decide)
  exact ⟨h.1, h.2 rfl⟩

end TokenProofs

end RabbitPanel
